import Mathlib

/-!
Verification development for the bowser SSH bastion daemon.

The Go sources are shallowly embedded as Lean functions.  Mutable session
state is passed explicitly; every externally produced value (results of
channel opens, agent round-trips, randomness, crypto operations, TCP
dials, file loads) is supplied by an environment record, and the side
effects the handler performs are collected in an explicit trace.
Go pointers to Account objects are modelled as natural-number identities
dereferenced through a heap function, so Go pointer comparison becomes
equality of the identifiers.
-/

namespace Bowser

/-- SSH channel rejection codes used by the daemon
(ssh.Prohibited, ssh.ConnectionFailed, ssh.UnknownChannelType). -/
inductive RejectCode
  | prohibited
  | connectionFailed
  | unknownChannelType
deriving DecidableEq, Repr

/-- Modelled from the spec: the certificate produced by the CA (ca.go is not
under src/).  Per the spec, generate(session_uuid, principal, force_command)
yields a certificate whose principals list contains exactly the principal,
whose key identifier is the session uuid, and which carries a force-command
critical option exactly when force_command is non-empty. -/
structure Cert where
  keyId : String
  principals : List String
  forceCommand : Option String
deriving DecidableEq, Repr

/-- Modelled from the spec: CA generation (the pure certificate shape;
generation failure is supplied separately by the environment). -/
def caGenerate (uuid principal forceCommand : String) : Cert :=
  { keyId := uuid
    principals := [principal]
    forceCommand := if forceCommand = "" then none else some forceCommand }

/-- agent.AddedKey as built by addTempAuth: certificate, lifetime in
seconds, comment.  The private key itself carries no observable data
relevant to the claims and is omitted. -/
structure AddedKey where
  cert : Cert
  lifetimeSecs : Nat
  comment : String
deriving DecidableEq, Repr

/-- Observable side effects of one run of handleChannelForward, in program
order.  Each constructor corresponds to one call site in the Go source. -/
inductive Effect
  | openAgentChannel
  | setAgent (h : Nat)
  | reject (code : RejectCode) (msg : String)
  | policyConsult (host : String)
  | addTempAuthCall (addr : String)
  | agentAdd (k : AddedKey)
  | notify (addr : String)
  | dial (addr : String)
  | acceptChannel
  | proxyStart
deriving DecidableEq, Repr

/-- The per-account data read by the forward handler.  The compiled
whitelist and blacklist regexes are modelled as optional match predicates
(none models a nil compiled regex). -/
structure Account where
  username : String
  whitelistRe : Option (String → Bool)
  blacklistRe : Option (String → Bool)

/-- AccountKey as seen by the key index: the owning Account pointer,
modelled by its identity.  (Comment and options are not consulted by any
code path under verification.) -/
structure AccountKey where
  account : Nat
deriving DecidableEq, Repr

/-- One signer returned by the forwarded agent, together with the
environment-supplied outcomes of the operations the handler may perform
with it: the wire marshalling of its public key, the result of reading
128 random bytes for its challenge (none models a rand.Read error), the
result of signer.Sign on the token (none models a signing error), and
whether accountKey.Key.Verify returns nil error on a token/signature
pair. -/
structure Signer where
  pubkeyWire : String
  randRes : Option Nat
  signRes : Nat → Option Nat
  verifyRes : Nat → Nat → Bool

/-- channelOpenDirectMsg: the decoded direct-tcpip extra data. -/
structure ChannelOpenDirectMsg where
  raddr : String
  rport : Nat
  laddr : String
  lport : Nat
deriving DecidableEq, Repr

/-- Zero value of channelOpenDirectMsg, as left by a failed ssh.Unmarshal
into a freshly declared msg variable. -/
def zeroDirectMsg : ChannelOpenDirectMsg :=
  { raddr := "", rport := 0, laddr := "", lport := 0 }

/-- The configuration fields consulted by the forward path. -/
structure Config where
  forceUser : String
  forceCommand : String
deriving DecidableEq, Repr

/-- SSHSession state mutated by the forward handler: UUID, Account pointer
(identity), forwarded-agent handle (none until set), verified flag, and
the list of proxied connections. -/
structure SSHSession where
  uuid : String
  account : Nat
  agent : Option Nat
  verified : Bool
  proxies : List Nat
deriving DecidableEq, Repr

/-- Environment for one run of handleChannelForward: the daemon state the
handler reads (Account heap and key index) and the outcome of every
external interaction. -/
structure Env where
  heap : Nat → Account
  keys : String → Option AccountKey
  openAgentRes : Option Nat
  signersRes : Option (List Signer)
  extraData : Option ChannelOpenDirectMsg
  caFail : Bool
  agentAddOk : Bool
  dialRes : Option Nat
  dialErrText : String

/-- canConnectTo from session.go: check the whitelist first, then the
blacklist. -/
def canConnectTo (acct : Account) (addr : String) : Bool :=
  if acct.whitelistRe.elim false (fun wl => !(wl addr)) then false
  else if acct.blacklistRe.elim false (fun bl => bl addr) then false
  else true

/-- The policy decision as the specification words it: allow iff
(whitelist absent or whitelist matches host) and (blacklist absent or
blacklist does not match host). -/
def policyMatcherSpec (wl bl : Option (String → Bool)) (host : String) : Bool :=
  (wl.elim true fun f => f host) && (bl.elim true fun f => !(f host))

/-- Outcome of the signer verification loop in handleChannelForward:
either an early return rejecting the channel, or falling through the loop
with the resulting verified value (true after a successful verification
and break, false when no signer matched). -/
inductive VerifyOutcome
  | rejected (code : RejectCode) (msg : String)
  | fellThrough (verified : Bool)
deriving DecidableEq, Repr

/-- The signer iteration of handleChannelForward: skip signers whose key
is unknown or owned by a different account; on the first matching signer
generate the random token, sign it and verify the signature, rejecting on
any failure and setting verified on success. -/
def verifyLoop (keys : String → Option AccountKey) (sessAccount : Nat) :
    List Signer → VerifyOutcome
  | [] => .fellThrough false
  | sg :: rest =>
    match keys sg.pubkeyWire with
    | none => verifyLoop keys sessAccount rest
    | some accountKey =>
      if accountKey.account ≠ sessAccount then
        verifyLoop keys sessAccount rest
      else
        match sg.randRes with
        | none => .rejected .prohibited "cannot generate random token"
        | some token =>
          match sg.signRes token with
          | none => .rejected .prohibited "cannot sign random token"
          | some sig =>
            if sg.verifyRes token sig then .fellThrough true
            else .rejected .prohibited "signature verification failed"

/-- Predicate of C2: no signer in the list has a known key owned by the
given account. -/
def noMatchingSigner (keys : String → Option AccountKey) (sessAccount : Nat)
    (sgs : List Signer) : Bool :=
  sgs.all fun sg =>
    match keys sg.pubkeyWire with
    | none => true
    | some accountKey => accountKey.account != sessAccount

/-- Result of addTempAuth: CA generation failure, agent Add failure (the
key was still submitted to the agent), or success. -/
inductive AddTempAuthResult
  | genFailed
  | addFailed (k : AddedKey)
  | ok (k : AddedKey)
deriving DecidableEq, Repr

/-- addTempAuth from session.go: choose the principal (force_user if
non-empty, else the account username), ask the CA to generate the
certificate, and add it to the forwarded agent with a 10 second lifetime
and a comment naming the destination. -/
def addTempAuth (cfg : Config) (env : Env) (s : SSHSession) (addr : String) :
    AddTempAuthResult :=
  let username := if cfg.forceUser ≠ "" then cfg.forceUser
                  else (env.heap s.account).username
  if env.caFail then .genFailed
  else
    let k : AddedKey :=
      { cert := caGenerate s.uuid username cfg.forceCommand
        lifetimeSecs := 10
        comment := "temporary ssh certificate (" ++ addr ++ ")" }
    if env.agentAddOk then .ok k else .addFailed k

/-- The tail of handleChannelForward after the verification block: decode
the direct-tcpip request (a failed unmarshal is ignored, leaving the zero
value), run the policy check on the raw raddr, issue the temporary
credential, notify, dial raddr:rport, and hand the channel to the proxy. -/
def forwardAfterVerify (cfg : Config) (env : Env) (s : SSHSession) :
    SSHSession × List Effect :=
  let msg := env.extraData.getD zeroDirectMsg
  let address := msg.raddr ++ ":" ++ toString msg.rport
  if !(canConnectTo (env.heap s.account) msg.raddr) then
    (s, [.policyConsult msg.raddr, .reject .connectionFailed "invalid permissions"])
  else
    match addTempAuth cfg env s msg.raddr with
    | .genFailed =>
      (s, [.policyConsult msg.raddr, .addTempAuthCall msg.raddr,
           .reject .prohibited "failed to generate or add ssh certificate"])
    | .addFailed k =>
      (s, [.policyConsult msg.raddr, .addTempAuthCall msg.raddr, .agentAdd k,
           .reject .prohibited "failed to generate or add ssh certificate"])
    | .ok k =>
      match env.dialRes with
      | none =>
        (s, [.policyConsult msg.raddr, .addTempAuthCall msg.raddr, .agentAdd k,
             .notify msg.raddr, .dial address,
             .reject .connectionFailed ("error: " ++ env.dialErrText)])
      | some conn =>
        ({ s with proxies := s.proxies ++ [conn] },
         [.policyConsult msg.raddr, .addTempAuthCall msg.raddr, .agentAdd k,
          .notify msg.raddr, .dial address, .acceptChannel, .proxyStart])

/-- handleChannelForward from session.go: open the auth-agent channel
(rejecting if that fails), install a fresh agent client on the session,
run the verification loop when the session is not yet verified, and then
continue with policy check, credential issuance and proxying. -/
def handleChannelForward (cfg : Config) (env : Env) (s : SSHSession) :
    SSHSession × List Effect :=
  match env.openAgentRes with
  | none =>
    (s, [.openAgentChannel,
         .reject .prohibited "you must have an ssh agent open and forwarded"])
  | some agentChan =>
    let s1 := { s with agent := some agentChan }
    let pre : List Effect := [.openAgentChannel, .setAgent agentChan]
    if s1.verified then
      let r := forwardAfterVerify cfg env s1
      (r.1, pre ++ r.2)
    else
      match env.signersRes with
      | none =>
        (s1, pre ++ [.reject .prohibited "agent will not give us a list of signers"])
      | some signers =>
        match verifyLoop env.keys s1.account signers with
        | .rejected code m => (s1, pre ++ [.reject code m])
        | .fellThrough v =>
          let s2 := { s1 with verified := v }
          let r := forwardAfterVerify cfg env s2
          (r.1, pre ++ r.2)

/-- A raw account entry as decoded from the accounts file: the username
and the textual authorized-keys lines. -/
structure RawAccount where
  username : String
  sshKeysRaw : List String
deriving DecidableEq, Repr

/-- Go map read, modelled on an association list (insertion conses to the
front; reloadAccounts never overwrites an existing binding because it
aborts on duplicates first). -/
def mapGet {α : Type} : List (String × α) → String → Option α
  | [], _ => none
  | (k, v) :: rest, key => if k = key then some v else mapGet rest key

/-- The two store maps rebuilt by reloadAccounts: username to Account
pointer and key wire marshalling to AccountKey.  Every stored pointer is
the address of the single range loop variable that the account loop
reuses (the source takes the address of the loop variable on each
iteration, so all bindings alias one cell). -/
structure StoreMaps where
  accounts : List (String × Nat)
  keys : List (String × AccountKey)
deriving DecidableEq, Repr

/-- The inner key loop of reloadAccounts for one account: parse each raw
key line (a parse failure is logged and skipped), abort the whole reload
on a duplicate key wire, and otherwise insert the AccountKey.  The parse
oracle maps a raw authorized-keys line to the wire marshalling of its
key, none for a malformed line.  The Account pointer stored in every
AccountKey is the address of the reused account loop variable, the same
cell for every key of every account. -/
def buildKeys (parse : String → Option String) (cell : Nat) :
    List String → List (String × AccountKey) → Option (List (String × AccountKey))
  | [], keys => some keys
  | rawKey :: rest, keys =>
    match parse rawKey with
    | none => buildKeys parse cell rest keys
    | some wire =>
      match mapGet keys wire with
      | some _ => none
      | none => buildKeys parse cell rest ((wire, ⟨cell⟩) :: keys)

/-- The account loop of reloadAccounts: abort on a duplicate username,
insert the account, and run the key loop.  The value stored under every
username is the address of the reused range loop variable (pre Go 1.22
semantics; the repository has no go.mod), so every iteration stores the
same pointer. -/
def buildMaps (parse : String → Option String) (cell : Nat) :
    List RawAccount → List (String × Nat) → List (String × AccountKey) →
    Option (List (String × Nat) × List (String × AccountKey))
  | [], accounts, keys => some (accounts, keys)
  | a :: rest, accounts, keys =>
    match mapGet accounts a.username with
    | some _ => none
    | none =>
      match buildKeys parse cell a.sshKeysRaw keys with
      | none => none
      | some keys2 => buildMaps parse cell rest ((a.username, cell) :: accounts) keys2

/-- reloadAccounts from the daemon state: a failed LoadAccounts or an
aborted build leaves the previous store untouched; otherwise both maps
are replaced by the freshly built ones.  The cell argument is the
runtime address of the reused loop variable. -/
def reloadAccounts (parse : String → Option String) (cell : Nat)
    (loadRes : Option (List RawAccount)) (st : StoreMaps) : StoreMaps :=
  match loadRes with
  | none => st
  | some rawAccounts =>
    match buildMaps parse cell rawAccounts [] [] with
    | none => st
    | some (accounts, keys) => { accounts := accounts, keys := keys }

/-- Content of the reused account loop variable after a full pass over
the accounts file: each iteration overwrites the one cell, so it ends
holding the last parsed account. -/
def loopCellFinal : List RawAccount → Option RawAccount
  | [] => none
  | [a] => some a
  | _ :: rest => loopCellFinal rest

/-- The Account data the daemon sees behind a RawAccount (reload does not
compile the regexes; they stay nil here). -/
def accountOfRaw (a : RawAccount) : Account :=
  { username := a.username, whitelistRe := none, blacklistRe := none }

/-- Pointer dereference after a completed reload: every pointer the store
holds is the one loop cell, whose content is the last parsed account.
The default is returned for an empty file, where no pointer was stored. -/
def postReloadHeap (raw : List RawAccount) (dflt : Account) : Nat → Account :=
  fun _ =>
    match loopCellFinal raw with
    | some a => accountOfRaw a
    | none => dflt

/-- Wire marshallings of the keys of one raw account that parse
successfully. -/
def wiresOf (parse : String → Option String) (a : RawAccount) : List String :=
  a.sshKeysRaw.filterMap parse

/-- All successfully parsed key wire marshallings of an accounts file, in
file order. -/
def allWires (parse : String → Option String) : List RawAccount → List String
  | [] => []
  | a :: rest => wiresOf parse a ++ allWires parse rest

/-- The three endpoint closures performed by the proxy teardown body. -/
inductive CloseEffect
  | closeAgentChan
  | closeClientChannel
  | closeTcpConn
deriving DecidableEq, Repr

/-- The closeFunc body of the proxy teardown: close the agent channel,
the client channel and the TCP connection, in that order. -/
def closeFunc : List CloseEffect :=
  [.closeAgentChan, .closeClientChannel, .closeTcpConn]

/-- sync.Once.Do on the teardown latch: the done flag and the effects of
this call. -/
def onceDo (done : Bool) (body : List CloseEffect) : Bool × List CloseEffect :=
  if done then (true, []) else (true, body)

/-- A serialized sequence of n invocations of closer.Do(closeFunc), as
performed by the two copy-direction tasks when they finish (the internal
mutex of sync.Once serializes the invocations; n covers any number of
triggers in any finishing order, both directions invoking the same
closure). -/
def runTriggers : Nat → Bool → Bool × List CloseEffect
  | 0, done => (done, [])
  | n + 1, done =>
    let r1 := onceDo done closeFunc
    let r2 := runTriggers n r1.1
    (r2.1, r1.2 ++ r2.2)

/-- PublicKeyCallback from the ssh.ServerConfig in Run: a key whose wire
marshalling is absent from the key index fails, a key whose owning
account username differs from the handshake username fails, anything else
is accepted. -/
def publicKeyCallback (keys : String → Option AccountKey) (heap : Nat → Account)
    (connUser : String) (keyWire : String) : Bool :=
  match keys keyWire with
  | none => false
  | some accountKey =>
    if connUser ≠ (heap accountKey.account).username then false
    else true

/-! Concrete fixtures used to evaluate the model on closed inputs. -/

/-- An account with no whitelist and no blacklist. -/
def acct0 : Account :=
  { username := "alice", whitelistRe := none, blacklistRe := none }

/-- An account whose whitelist matches nothing, so every destination is
denied. -/
def acctDeny : Account :=
  { username := "alice", whitelistRe := some (fun _ => false), blacklistRe := none }

/-- A fresh unverified session for account 0. -/
def sess0 : SSHSession :=
  { uuid := "u", account := 0, agent := none, verified := false, proxies := [] }

/-- A signer whose agent operations all succeed. -/
def signer0 : Signer :=
  { pubkeyWire := "kw", randRes := some 0, signRes := fun _ => some 0,
    verifyRes := fun _ _ => true }

/-- A benign environment: agent opens, empty signer list, undecodable
extra data, CA and agent add succeed, dial succeeds. -/
def env0 : Env :=
  { heap := fun _ => acct0, keys := fun _ => none, openAgentRes := some 7,
    signersRes := some [], extraData := none, caFail := false,
    agentAddOk := true, dialRes := some 3, dialErrText := "refused" }

/-- A default configuration with no forced user or command. -/
def cfg0 : Config := { forceUser := "", forceCommand := "" }

/-! Helper lemmas shared by several claims. -/

/-- Failed agent channel open: the handler rejects at once. -/
theorem handleChannelForward_open_fail (cfg : Config) (env : Env) (s : SSHSession)
    (ha : env.openAgentRes = none) :
    handleChannelForward cfg env s =
      (s, [.openAgentChannel,
           .reject .prohibited "you must have an ssh agent open and forwarded"]) := by
  simp [handleChannelForward, ha]

/-- Already verified session: the handler installs the fresh agent client
and goes straight to the tail. -/
theorem handleChannelForward_on_verified (cfg : Config) (env : Env) (s : SSHSession)
    (a : Nat) (ha : env.openAgentRes = some a) (hv : s.verified = true) :
    handleChannelForward cfg env s =
      ((forwardAfterVerify cfg env { s with agent := some a }).1,
       [.openAgentChannel, .setAgent a] ++
         (forwardAfterVerify cfg env { s with agent := some a }).2) := by
  simp [handleChannelForward, ha, hv]

/-- Unverified session whose agent refuses to list signers: prohibited
rejection. -/
theorem handleChannelForward_signers_fail (cfg : Config) (env : Env) (s : SSHSession)
    (a : Nat) (ha : env.openAgentRes = some a) (hv : s.verified = false)
    (hs : env.signersRes = none) :
    handleChannelForward cfg env s =
      ({ s with agent := some a },
       [.openAgentChannel, .setAgent a,
        .reject .prohibited "agent will not give us a list of signers"]) := by
  simp [handleChannelForward, ha, hv, hs]

/-- Unverified session whose verification loop rejects: the rejection is
forwarded verbatim and nothing else happens. -/
theorem handleChannelForward_loop_reject (cfg : Config) (env : Env) (s : SSHSession)
    (a : Nat) (sgs : List Signer) (c : RejectCode) (m : String)
    (ha : env.openAgentRes = some a) (hv : s.verified = false)
    (hs : env.signersRes = some sgs)
    (hl : verifyLoop env.keys s.account sgs = .rejected c m) :
    handleChannelForward cfg env s =
      ({ s with agent := some a }, [.openAgentChannel, .setAgent a, .reject c m]) := by
  simp [handleChannelForward, ha, hv, hs, hl]

/-- Unverified session whose verification loop falls through: the handler
continues into the tail with the verified flag produced by the loop. -/
theorem handleChannelForward_fell_through (cfg : Config) (env : Env) (s : SSHSession)
    (a : Nat) (sgs : List Signer) (v : Bool)
    (ha : env.openAgentRes = some a) (hv : s.verified = false)
    (hs : env.signersRes = some sgs)
    (hl : verifyLoop env.keys s.account sgs = .fellThrough v) :
    handleChannelForward cfg env s =
      ((forwardAfterVerify cfg env { s with agent := some a, verified := v }).1,
       [.openAgentChannel, .setAgent a] ++
         (forwardAfterVerify cfg env { s with agent := some a, verified := v }).2) := by
  simp [handleChannelForward, ha, hv, hs, hl]

/-- The tail of the forward handler only ever appends to the proxy list;
uuid, account, agent handle and verified flag are untouched. -/
theorem forwardAfterVerify_state (cfg : Config) (env : Env) (s : SSHSession) :
    ∃ p, (forwardAfterVerify cfg env s).1 = { s with proxies := p } := by
  cases hc : canConnectTo (env.heap s.account) (env.extraData.getD zeroDirectMsg).raddr with
  | false => exact ⟨s.proxies, by simp [forwardAfterVerify, hc]⟩
  | true =>
    rcases hadd : addTempAuth cfg env s (env.extraData.getD zeroDirectMsg).raddr with _ | k | k
    · exact ⟨s.proxies, by simp [forwardAfterVerify, hc, hadd]⟩
    · exact ⟨s.proxies, by simp [forwardAfterVerify, hc, hadd]⟩
    · cases hdial : env.dialRes with
      | none => exact ⟨s.proxies, by simp [forwardAfterVerify, hc, hadd, hdial]⟩
      | some conn => exact ⟨s.proxies ++ [conn], by simp [forwardAfterVerify, hc, hadd, hdial]⟩

theorem forwardAfterVerify_verified (cfg : Config) (env : Env) (s : SSHSession) :
    ((forwardAfterVerify cfg env s).1).verified = s.verified := by
  obtain ⟨p, h⟩ := forwardAfterVerify_state cfg env s
  rw [h]

theorem forwardAfterVerify_agent (cfg : Config) (env : Env) (s : SSHSession) :
    ((forwardAfterVerify cfg env s).1).agent = s.agent := by
  obtain ⟨p, h⟩ := forwardAfterVerify_state cfg env s
  rw [h]

/-- Every host the policy matcher is consulted on by the handler tail is
the raw raddr of the decoded request. -/
theorem forwardAfterVerify_policyConsult (cfg : Config) (env : Env) (s : SSHSession)
    (hst : String) (hm : .policyConsult hst ∈ (forwardAfterVerify cfg env s).2) :
    hst = (env.extraData.getD zeroDirectMsg).raddr := by
  cases hc : canConnectTo (env.heap s.account) (env.extraData.getD zeroDirectMsg).raddr with
  | false => simp [forwardAfterVerify, hc] at hm; simp [hm]
  | true =>
    rcases hadd : addTempAuth cfg env s (env.extraData.getD zeroDirectMsg).raddr with _ | k | k
    · simp [forwardAfterVerify, hc, hadd] at hm; simp [hm]
    · simp [forwardAfterVerify, hc, hadd] at hm; simp [hm]
    · cases hdial : env.dialRes with
      | none => simp [forwardAfterVerify, hc, hadd, hdial] at hm; simp [hm]
      | some conn => simp [forwardAfterVerify, hc, hadd, hdial] at hm; simp [hm]

/-- The handler tail always consults the policy matcher on the raw raddr. -/
theorem forwardAfterVerify_consults (cfg : Config) (env : Env) (s : SSHSession) :
    .policyConsult ((env.extraData.getD zeroDirectMsg).raddr) ∈
      (forwardAfterVerify cfg env s).2 := by
  cases hc : canConnectTo (env.heap s.account) (env.extraData.getD zeroDirectMsg).raddr with
  | false => simp [forwardAfterVerify, hc]
  | true =>
    rcases hadd : addTempAuth cfg env s (env.extraData.getD zeroDirectMsg).raddr with _ | k | k
    · simp [forwardAfterVerify, hc, hadd]
    · simp [forwardAfterVerify, hc, hadd]
    · cases hdial : env.dialRes with
      | none => simp [forwardAfterVerify, hc, hadd, hdial]
      | some conn => simp [forwardAfterVerify, hc, hadd, hdial]

/-- Denied destination: the handler tail emits exactly the policy consult
and the connection-failed rejection. -/
theorem forwardAfterVerify_deny (cfg : Config) (env : Env) (s : SSHSession)
    (hc : canConnectTo (env.heap s.account) (env.extraData.getD zeroDirectMsg).raddr = false) :
    (forwardAfterVerify cfg env s).2 =
      [.policyConsult ((env.extraData.getD zeroDirectMsg).raddr),
       .reject .connectionFailed "invalid permissions"] := by
  simp [forwardAfterVerify, hc]

/-- Allowed destination: the handler tail invokes addTempAuth on the raw
raddr. -/
theorem forwardAfterVerify_issues (cfg : Config) (env : Env) (s : SSHSession)
    (hc : canConnectTo (env.heap s.account) (env.extraData.getD zeroDirectMsg).raddr = true) :
    .addTempAuthCall ((env.extraData.getD zeroDirectMsg).raddr) ∈
      (forwardAfterVerify cfg env s).2 := by
  rcases hadd : addTempAuth cfg env s (env.extraData.getD zeroDirectMsg).raddr with _ | k | k
  · simp [forwardAfterVerify, hc, hadd]
  · simp [forwardAfterVerify, hc, hadd]
  · cases hdial : env.dialRes with
    | none => simp [forwardAfterVerify, hc, hadd, hdial]
    | some conn => simp [forwardAfterVerify, hc, hadd, hdial]

/-- Any key handed to the agent by the handler tail came out of
addTempAuth, which either succeeded or failed at the Add step. -/
theorem forwardAfterVerify_agentAdd (cfg : Config) (env : Env) (s : SSHSession)
    (k : AddedKey) (hm : .agentAdd k ∈ (forwardAfterVerify cfg env s).2) :
    addTempAuth cfg env s ((env.extraData.getD zeroDirectMsg).raddr) = .addFailed k ∨
    addTempAuth cfg env s ((env.extraData.getD zeroDirectMsg).raddr) = .ok k := by
  cases hc : canConnectTo (env.heap s.account) (env.extraData.getD zeroDirectMsg).raddr with
  | false => simp [forwardAfterVerify, hc] at hm
  | true =>
    rcases hadd : addTempAuth cfg env s (env.extraData.getD zeroDirectMsg).raddr with _ | k2 | k2
    · simp [forwardAfterVerify, hc, hadd] at hm
    · simp [forwardAfterVerify, hc, hadd] at hm
      exact Or.inl (by rw [hm])
    · cases hdial : env.dialRes with
      | none =>
        simp [forwardAfterVerify, hc, hadd, hdial] at hm
        exact Or.inr (by rw [hm])
      | some conn =>
        simp [forwardAfterVerify, hc, hadd, hdial] at hm
        exact Or.inr (by rw [hm])

/-- The key built by addTempAuth always carries the 10 second lifetime,
the destination-naming comment, and the certificate generated for the
configured principal. -/
theorem addTempAuth_shape (cfg : Config) (env : Env) (s : SSHSession) (addr : String)
    (k : AddedKey)
    (h : addTempAuth cfg env s addr = .addFailed k ∨ addTempAuth cfg env s addr = .ok k) :
    k = { cert := caGenerate s.uuid
            (if cfg.forceUser ≠ "" then cfg.forceUser else (env.heap s.account).username)
            cfg.forceCommand
          lifetimeSecs := 10
          comment := "temporary ssh certificate (" ++ addr ++ ")" } := by
  rcases h with h | h <;>
  · simp only [addTempAuth] at h
    split at h
    · exact absurd h (by simp)
    · split at h <;> simp_all

/-- addTempAuth returns ok only when the agent Add step succeeded. -/
theorem addTempAuth_ok_requires_add (cfg : Config) (env : Env) (s : SSHSession)
    (addr : String) (k : AddedKey) (hok : addTempAuth cfg env s addr = .ok k) :
    env.agentAddOk = true := by
  simp only [addTempAuth] at hok
  split at hok
  · exact absurd hok (by simp)
  · split at hok
    · assumption
    · exact absurd hok (by simp)

/-- A successful fall-through of the verification loop with verified set
exhibits a signer whose key is known, owned by the session account, and
for which randomness, signing and verification all succeeded. -/
theorem verifyLoop_success (keys : String → Option AccountKey) (acct : Nat)
    (sgs : List Signer) (h : verifyLoop keys acct sgs = .fellThrough true) :
    ∃ sg ∈ sgs, ∃ ak t g,
      keys sg.pubkeyWire = some ak ∧ ak.account = acct ∧
      sg.randRes = some t ∧ sg.signRes t = some g ∧ sg.verifyRes t g = true := by
  induction sgs with
  | nil => simp [verifyLoop] at h
  | cons sg rest ih =>
    rw [verifyLoop] at h
    cases hk : keys sg.pubkeyWire with
    | none =>
      simp only [hk] at h
      obtain ⟨sg2, hmem, rest2⟩ := ih h
      exact ⟨sg2, List.mem_cons_of_mem sg hmem, rest2⟩
    | some ak =>
      simp only [hk] at h
      by_cases hacct : ak.account = acct
      · rw [if_neg (by simp [hacct])] at h
        cases hr : sg.randRes with
        | none => simp [hr] at h
        | some t =>
          simp only [hr] at h
          cases hs : sg.signRes t with
          | none => simp [hs] at h
          | some g =>
            simp only [hs] at h
            cases hv : sg.verifyRes t g with
            | false => simp [hv] at h
            | true =>
              exact ⟨sg, List.mem_cons_self sg rest, ak, t, g, hk, hacct, hr, hs, hv⟩
      · rw [if_pos hacct] at h
        obtain ⟨sg2, hmem, rest2⟩ := ih h
        exact ⟨sg2, List.mem_cons_of_mem sg hmem, rest2⟩

/-- When no signer has a known key owned by the session account, the
verification loop falls through with verified still false. -/
theorem verifyLoop_noMatch (keys : String → Option AccountKey) (acct : Nat)
    (sgs : List Signer) (h : noMatchingSigner keys acct sgs = true) :
    verifyLoop keys acct sgs = .fellThrough false := by
  induction sgs with
  | nil => simp [verifyLoop]
  | cons sg rest ih =>
    rw [noMatchingSigner, List.all_cons] at h
    rw [Bool.and_eq_true] at h
    rw [verifyLoop]
    cases hk : keys sg.pubkeyWire with
    | none =>
      simp only [hk]
      exact ih h.2
    | some ak =>
      have h1 := h.1
      simp only [hk] at h1
      have hne : ak.account ≠ acct := by simpa using h1
      simp only [hk]
      rw [if_pos hne]
      exact ih h.2

/-- Every rejection produced inside the verification loop uses the
prohibited code and one of the three failure messages. -/
theorem verifyLoop_rejected (keys : String → Option AccountKey) (acct : Nat)
    (sgs : List Signer) (c : RejectCode) (m : String)
    (h : verifyLoop keys acct sgs = .rejected c m) :
    c = .prohibited ∧
    (m = "cannot generate random token" ∨ m = "cannot sign random token" ∨
     m = "signature verification failed") := by
  induction sgs with
  | nil => simp [verifyLoop] at h
  | cons sg rest ih =>
    rw [verifyLoop] at h
    cases hk : keys sg.pubkeyWire with
    | none =>
      simp only [hk] at h
      exact ih h
    | some ak =>
      simp only [hk] at h
      by_cases hacct : ak.account = acct
      · rw [if_neg (by simp [hacct])] at h
        cases hr : sg.randRes with
        | none => simp only [hr] at h; simp at h; simp [h]
        | some t =>
          simp only [hr] at h
          cases hs : sg.signRes t with
          | none => simp only [hs] at h; simp at h; simp [h]
          | some g =>
            simp only [hs] at h
            cases hv : sg.verifyRes t g with
            | false => simp only [hv] at h; simp at h; simp [h]
            | true => simp [hv] at h
      · rw [if_pos hacct] at h
        exact ih h

/-- Allowed destination with a working CA and agent: the dial effect on
raddr:rport is emitted (whether or not the dial then succeeds). -/
theorem forwardAfterVerify_dial (cfg : Config) (env : Env) (s : SSHSession)
    (hc : canConnectTo (env.heap s.account) ((env.extraData.getD zeroDirectMsg).raddr) = true)
    (hca : env.caFail = false) (haddok : env.agentAddOk = true) :
    .dial ((env.extraData.getD zeroDirectMsg).raddr ++ ":" ++
            toString (env.extraData.getD zeroDirectMsg).rport) ∈
      (forwardAfterVerify cfg env s).2 := by
  obtain ⟨k, hadd⟩ : ∃ k, addTempAuth cfg env s ((env.extraData.getD zeroDirectMsg).raddr) = .ok k :=
    ⟨{ cert := caGenerate s.uuid
         (if cfg.forceUser ≠ "" then cfg.forceUser else (env.heap s.account).username)
         cfg.forceCommand
       lifetimeSecs := 10
       comment := "temporary ssh certificate (" ++ (env.extraData.getD zeroDirectMsg).raddr ++ ")" },
     by simp [addTempAuth, hca, haddok]⟩
  cases hdial : env.dialRes with
  | none => simp [forwardAfterVerify, hc, hadd, hdial]
  | some conn => simp [forwardAfterVerify, hc, hadd, hdial]

/-- A key that the handler tail submitted to the agent while Add was
failing is followed by the prohibited rejection. -/
theorem forwardAfterVerify_addFailed_reject (cfg : Config) (env : Env) (s : SSHSession)
    (k : AddedKey)
    (hadd : addTempAuth cfg env s ((env.extraData.getD zeroDirectMsg).raddr) = .addFailed k) :
    .agentAdd k ∈ (forwardAfterVerify cfg env s).2 →
    .reject .prohibited "failed to generate or add ssh certificate" ∈
      (forwardAfterVerify cfg env s).2 := by
  intro hm
  cases hc : canConnectTo (env.heap s.account) (env.extraData.getD zeroDirectMsg).raddr with
  | false => rw [forwardAfterVerify_deny cfg env s hc] at hm; simp at hm
  | true => simp [forwardAfterVerify, hc, hadd]

/-- Every agentAdd the full handler performs happens inside the tail, on a
session sharing the original uuid and account, and every effect of that
tail is part of the handler trace. -/
theorem handleChannelForward_agentAdd_aux (cfg : Config) (env : Env) (s : SSHSession)
    (k : AddedKey) (hm : .agentAdd k ∈ (handleChannelForward cfg env s).2) :
    ∃ s2 : SSHSession, s2.uuid = s.uuid ∧ s2.account = s.account ∧
      .agentAdd k ∈ (forwardAfterVerify cfg env s2).2 ∧
      ∀ e, e ∈ (forwardAfterVerify cfg env s2).2 → e ∈ (handleChannelForward cfg env s).2 := by
  cases ha : env.openAgentRes with
  | none =>
    rw [handleChannelForward_open_fail cfg env s ha] at hm
    simp at hm
  | some a =>
    cases hv : s.verified with
    | true =>
      rw [handleChannelForward_on_verified cfg env s a ha hv] at hm
      simp at hm
      refine ⟨{ s with agent := some a }, rfl, rfl, hm, ?_⟩
      intro e he
      rw [handleChannelForward_on_verified cfg env s a ha hv]
      exact List.mem_append.mpr (Or.inr he)
    | false =>
      cases hs : env.signersRes with
      | none =>
        rw [handleChannelForward_signers_fail cfg env s a ha hv hs] at hm
        simp at hm
      | some sgs =>
        cases hl : verifyLoop env.keys s.account sgs with
        | rejected c m =>
          rw [handleChannelForward_loop_reject cfg env s a sgs c m ha hv hs hl] at hm
          simp at hm
        | fellThrough v =>
          rw [handleChannelForward_fell_through cfg env s a sgs v ha hv hs hl] at hm
          simp at hm
          refine ⟨{ s with agent := some a, verified := v }, rfl, rfl, hm, ?_⟩
          intro e he
          rw [handleChannelForward_fell_through cfg env s a sgs v ha hv hs hl]
          exact List.mem_append.mpr (Or.inr he)

/-- C1: for any session the verified flag is monotonic (a verified session
stays verified through the forward handler), it becomes true only when
some signer with a known key of the session account passed random token
generation, signing and signature verification, and any failure to list
signers or any generation, signing or verification failure rejects the
channel with prohibited and leaves verified false. -/
theorem claim_C1_verified_monotonic_only_on_success (cfg : Config) (env : Env)
    (s : SSHSession) :
    (s.verified = true → (handleChannelForward cfg env s).1.verified = true)
    ∧ ((handleChannelForward cfg env s).1.verified = true →
        s.verified = true ∨
        ∃ a sgs, env.openAgentRes = some a ∧ env.signersRes = some sgs ∧
          ∃ sg ∈ sgs, ∃ ak t g,
            env.keys sg.pubkeyWire = some ak ∧ ak.account = s.account ∧
            sg.randRes = some t ∧ sg.signRes t = some g ∧ sg.verifyRes t g = true)
    ∧ (∀ a, s.verified = false → env.openAgentRes = some a → env.signersRes = none →
        (handleChannelForward cfg env s).2 =
          [.openAgentChannel, .setAgent a,
           .reject .prohibited "agent will not give us a list of signers"] ∧
        (handleChannelForward cfg env s).1.verified = false)
    ∧ (∀ a sgs c m, s.verified = false → env.openAgentRes = some a →
        env.signersRes = some sgs →
        verifyLoop env.keys s.account sgs = .rejected c m →
        (handleChannelForward cfg env s).2 = [.openAgentChannel, .setAgent a, .reject c m] ∧
        c = .prohibited ∧
        (handleChannelForward cfg env s).1.verified = false) := by
  refine ⟨?_, ?_, ?_, ?_⟩
  · intro hv
    cases ha : env.openAgentRes with
    | none =>
      rw [handleChannelForward_open_fail cfg env s ha]
      exact hv
    | some a =>
      rw [handleChannelForward_on_verified cfg env s a ha hv]
      show (forwardAfterVerify cfg env { s with agent := some a }).1.verified = true
      rw [forwardAfterVerify_verified]
      exact hv
  · intro hres
    cases ha : env.openAgentRes with
    | none =>
      rw [handleChannelForward_open_fail cfg env s ha] at hres
      exact Or.inl hres
    | some a =>
      cases hv : s.verified with
      | true => exact Or.inl rfl
      | false =>
        cases hs : env.signersRes with
        | none =>
          rw [handleChannelForward_signers_fail cfg env s a ha hv hs] at hres
          simp at hres
          exact absurd hres.symm (by simp [hv])
        | some sgs =>
          cases hl : verifyLoop env.keys s.account sgs with
          | rejected c m =>
            rw [handleChannelForward_loop_reject cfg env s a sgs c m ha hv hs hl] at hres
            simp at hres
            exact absurd hres.symm (by simp [hv])
          | fellThrough v =>
            rw [handleChannelForward_fell_through cfg env s a sgs v ha hv hs hl] at hres
            have hres2 :
                (forwardAfterVerify cfg env { s with agent := some a, verified := v }).1.verified
                  = true := hres
            rw [forwardAfterVerify_verified] at hres2
            have hv2 : v = true := hres2
            subst hv2
            exact Or.inr ⟨a, sgs, rfl, rfl, verifyLoop_success env.keys s.account sgs hl⟩
  · intro a hv ha hs
    rw [handleChannelForward_signers_fail cfg env s a ha hv hs]
    exact ⟨rfl, hv⟩
  · intro a sgs c m hv ha hs hl
    rw [handleChannelForward_loop_reject cfg env s a sgs c m ha hv hs hl]
    exact ⟨rfl, (verifyLoop_rejected env.keys s.account sgs c m hl).1, hv⟩

/-- C1 witness: on a concrete verified session the flag stays true, and on
a concrete unverified session whose agent cannot list signers the channel
is rejected with verified still false. -/
theorem claim_C1_witness :
    (handleChannelForward cfg0 env0 { sess0 with verified := true }).1.verified = true ∧
    (handleChannelForward cfg0 { env0 with signersRes := none } sess0).2 =
      [.openAgentChannel, .setAgent 7,
       .reject .prohibited "agent will not give us a list of signers"] :=
  ⟨(claim_C1_verified_monotonic_only_on_success cfg0 env0
      { sess0 with verified := true }).1 rfl,
   ((claim_C1_verified_monotonic_only_on_success cfg0
      { env0 with signersRes := none } sess0).2.2.1 7 rfl rfl rfl).1⟩

/-- C2: an unverified session whose agent lists no signer with a known key
of the session account is not rejected for lack of verification: the
handler proceeds with verified still false and, when the policy allows
the destination, invokes addTempAuth. -/
theorem claim_C2_unverified_reaches_issuance (cfg : Config) (env : Env) (s : SSHSession)
    (a : Nat) (sgs : List Signer)
    (hv : s.verified = false) (ha : env.openAgentRes = some a)
    (hs : env.signersRes = some sgs)
    (hnm : noMatchingSigner env.keys s.account sgs = true)
    (hc : canConnectTo (env.heap s.account) ((env.extraData.getD zeroDirectMsg).raddr) = true) :
    .addTempAuthCall ((env.extraData.getD zeroDirectMsg).raddr) ∈
      (handleChannelForward cfg env s).2 ∧
    (handleChannelForward cfg env s).1.verified = false := by
  have hl := verifyLoop_noMatch env.keys s.account sgs hnm
  rw [handleChannelForward_fell_through cfg env s a sgs false ha hv hs hl]
  constructor
  · have hmem := forwardAfterVerify_issues cfg env
      { s with agent := some a, verified := false } hc
    exact List.mem_append.mpr (Or.inr hmem)
  · exact forwardAfterVerify_verified cfg env { s with agent := some a, verified := false }

/-- C2 witness: a concrete unverified session with one signer whose key is
unknown reaches credential issuance with verified still false. -/
theorem claim_C2_witness :
    .addTempAuthCall "" ∈
      (handleChannelForward cfg0 { env0 with signersRes := some [signer0] } sess0).2 ∧
    (handleChannelForward cfg0 { env0 with signersRes := some [signer0] } sess0).1.verified
      = false :=
  claim_C2_unverified_reaches_issuance cfg0 { env0 with signersRes := some [signer0] }
    sess0 7 [signer0] rfl rfl rfl (by decide) (by decide)

/-- C3 (code bug): the claim matches the spec but not the code.  The
account loop of reloadAccounts stores the address of its reused range
loop variable into the account map and into every AccountKey, so after
reloading the two-account file [alice (one key parsing to wire kw), bob]
the rebuilt maps bind alice's wire, yet the one cell every stored
pointer aliases holds the last parsed account bob.  Evaluating the
public-key callback on that post-reload state, the handshake user bob
offering alice's key is accepted and alice offering her own key is
rejected, the opposite of what the claim and the spec mismatch scenario
require. -/
theorem claim_C3_loop_variable_aliasing_code_bug :
    reloadAccounts (fun l => if l = "ak" then some "kw" else none) 0
        (some [{ username := "alice", sshKeysRaw := ["ak"] },
               { username := "bob", sshKeysRaw := [] }])
        { accounts := [], keys := [] } =
      { accounts := [("bob", 0), ("alice", 0)], keys := [("kw", ⟨0⟩)] } ∧
    loopCellFinal [{ username := "alice", sshKeysRaw := ["ak"] },
                   { username := "bob", sshKeysRaw := [] }] =
      some { username := "bob", sshKeysRaw := [] } ∧
    publicKeyCallback (mapGet [("kw", (⟨0⟩ : AccountKey))])
        (postReloadHeap [{ username := "alice", sshKeysRaw := ["ak"] },
                         { username := "bob", sshKeysRaw := [] }] acct0)
        "bob" "kw" = true ∧
    publicKeyCallback (mapGet [("kw", (⟨0⟩ : AccountKey))])
        (postReloadHeap [{ username := "alice", sshKeysRaw := ["ak"] },
                         { username := "bob", sshKeysRaw := [] }] acct0)
        "alice" "kw" = false := by
  decide

/-- C4: the policy decision equals allow iff (whitelist absent or
matching) and (blacklist absent or not matching), and every host the
forward handler consults the matcher on is the raw raddr of the decoded
request, never the combined host:port string. -/
theorem claim_C4_policy_matcher :
    (∀ (acct : Account) (addr : String),
      canConnectTo acct addr = policyMatcherSpec acct.whitelistRe acct.blacklistRe addr)
    ∧ (∀ (cfg : Config) (env : Env) (s : SSHSession) (hst : String),
        .policyConsult hst ∈ (handleChannelForward cfg env s).2 →
        hst = (env.extraData.getD zeroDirectMsg).raddr) := by
  constructor
  · intro acct addr
    rcases acct with ⟨un, wl, bl⟩
    cases wl with
    | none =>
      cases bl with
      | none => simp [canConnectTo, policyMatcherSpec]
      | some f => cases hf : f addr <;> simp [canConnectTo, policyMatcherSpec, hf]
    | some g =>
      cases bl with
      | none => cases hg : g addr <;> simp [canConnectTo, policyMatcherSpec, hg]
      | some f =>
        cases hg : g addr <;> cases hf : f addr <;>
          simp [canConnectTo, policyMatcherSpec, hg, hf]
  · intro cfg env s hst hm
    cases ha : env.openAgentRes with
    | none =>
      rw [handleChannelForward_open_fail cfg env s ha] at hm
      simp at hm
    | some a =>
      cases hv : s.verified with
      | true =>
        rw [handleChannelForward_on_verified cfg env s a ha hv] at hm
        simp at hm
        exact forwardAfterVerify_policyConsult cfg env { s with agent := some a } hst hm
      | false =>
        cases hs : env.signersRes with
        | none =>
          rw [handleChannelForward_signers_fail cfg env s a ha hv hs] at hm
          simp at hm
        | some sgs =>
          cases hl : verifyLoop env.keys s.account sgs with
          | rejected c m =>
            rw [handleChannelForward_loop_reject cfg env s a sgs c m ha hv hs hl] at hm
            simp at hm
          | fellThrough v =>
            rw [handleChannelForward_fell_through cfg env s a sgs v ha hv hs hl] at hm
            simp at hm
            exact forwardAfterVerify_policyConsult cfg env
              { s with agent := some a, verified := v } hst hm

/-- C4 witness: a concrete run consults the matcher on the raw raddr. -/
theorem claim_C4_witness :
    "" = (env0.extraData.getD zeroDirectMsg).raddr :=
  claim_C4_policy_matcher.2 cfg0 env0 { sess0 with verified := true } "" (by decide)

/-- C6: every credential the forward handler injects into the forwarded
agent has a lifetime of exactly 10 seconds, a comment identifying the
destination host, and a certificate principal equal to the configured
force user when non-empty and the session account username otherwise; and
when the agent addition fails the channel is rejected with prohibited. -/
theorem claim_C6_credential_shape (cfg : Config) (env : Env) (s : SSHSession)
    (k : AddedKey) :
    (.agentAdd k ∈ (handleChannelForward cfg env s).2 →
      k.lifetimeSecs = 10 ∧
      k.comment = "temporary ssh certificate (" ++
        (env.extraData.getD zeroDirectMsg).raddr ++ ")" ∧
      k.cert.principals =
        [if cfg.forceUser ≠ "" then cfg.forceUser else (env.heap s.account).username])
    ∧ (env.agentAddOk = false → .agentAdd k ∈ (handleChannelForward cfg env s).2 →
        .reject .prohibited "failed to generate or add ssh certificate" ∈
          (handleChannelForward cfg env s).2) := by
  constructor
  · intro hm
    obtain ⟨s2, huuid, hacct, hmem, hincl⟩ :=
      handleChannelForward_agentAdd_aux cfg env s k hm
    have hor := forwardAfterVerify_agentAdd cfg env s2 k hmem
    have hk := addTempAuth_shape cfg env s2 _ k hor
    subst hk
    exact ⟨rfl, rfl, by simp [caGenerate, hacct]⟩
  · intro haddok hm
    obtain ⟨s2, huuid, hacct, hmem, hincl⟩ :=
      handleChannelForward_agentAdd_aux cfg env s k hm
    rcases forwardAfterVerify_agentAdd cfg env s2 k hmem with hadd | hok
    · exact hincl _ (forwardAfterVerify_addFailed_reject cfg env s2 k hadd hmem)
    · exact absurd (addTempAuth_ok_requires_add cfg env s2 _ k hok) (by simp [haddok])

/-- C6 witness: a concrete run injects a credential with lifetime 10,
destination comment and the account username as principal. -/
theorem claim_C6_witness :
    ({ cert := caGenerate "u" "alice" "", lifetimeSecs := 10,
       comment := "temporary ssh certificate ()" } : AddedKey).lifetimeSecs = 10 ∧
    ({ cert := caGenerate "u" "alice" "", lifetimeSecs := 10,
       comment := "temporary ssh certificate ()" } : AddedKey).comment =
      "temporary ssh certificate (" ++ (env0.extraData.getD zeroDirectMsg).raddr ++ ")" ∧
    ({ cert := caGenerate "u" "alice" "", lifetimeSecs := 10,
       comment := "temporary ssh certificate ()" } : AddedKey).cert.principals =
      [if cfg0.forceUser ≠ "" then cfg0.forceUser else
        (env0.heap ({ sess0 with verified := true } : SSHSession).account).username] :=
  (claim_C6_credential_shape cfg0 env0 { sess0 with verified := true }
    { cert := caGenerate "u" "alice" "", lifetimeSecs := 10,
      comment := "temporary ssh certificate ()" }).1 (by decide)

/-- C7: a forward whose destination the policy denies performs no
credential issuance, no notification and no dial, and whenever the policy
was actually consulted the channel is rejected with connection-failed and
the message invalid permissions. -/
theorem claim_C7_policy_deny_no_side_effects (cfg : Config) (env : Env) (s : SSHSession)
    (hc : canConnectTo (env.heap s.account) ((env.extraData.getD zeroDirectMsg).raddr) = false) :
    (∀ k, .agentAdd k ∉ (handleChannelForward cfg env s).2)
    ∧ (∀ r, .addTempAuthCall r ∉ (handleChannelForward cfg env s).2)
    ∧ (∀ r, .notify r ∉ (handleChannelForward cfg env s).2)
    ∧ (∀ r, .dial r ∉ (handleChannelForward cfg env s).2)
    ∧ (.policyConsult ((env.extraData.getD zeroDirectMsg).raddr) ∈
        (handleChannelForward cfg env s).2 →
        .reject .connectionFailed "invalid permissions" ∈
          (handleChannelForward cfg env s).2) := by
  cases ha : env.openAgentRes with
  | none =>
    rw [handleChannelForward_open_fail cfg env s ha]
    refine ⟨fun k => by simp, fun r => by simp, fun r => by simp, fun r => by simp, fun hpc => ?_⟩
    simp at hpc
  | some a =>
    cases hv : s.verified with
    | true =>
      rw [handleChannelForward_on_verified cfg env s a ha hv,
          forwardAfterVerify_deny cfg env { s with agent := some a } hc]
      refine ⟨fun k => by simp, fun r => by simp, fun r => by simp, fun r => by simp,
        fun hpc => by simp⟩
    | false =>
      cases hs : env.signersRes with
      | none =>
        rw [handleChannelForward_signers_fail cfg env s a ha hv hs]
        refine ⟨fun k => by simp, fun r => by simp, fun r => by simp, fun r => by simp,
          fun hpc => ?_⟩
        simp at hpc
      | some sgs =>
        cases hl : verifyLoop env.keys s.account sgs with
        | rejected c m =>
          rw [handleChannelForward_loop_reject cfg env s a sgs c m ha hv hs hl]
          refine ⟨fun k => by simp, fun r => by simp, fun r => by simp, fun r => by simp,
            fun hpc => ?_⟩
          simp at hpc
        | fellThrough v =>
          rw [handleChannelForward_fell_through cfg env s a sgs v ha hv hs hl,
              forwardAfterVerify_deny cfg env { s with agent := some a, verified := v } hc]
          refine ⟨fun k => by simp, fun r => by simp, fun r => by simp, fun r => by simp,
            fun hpc => by simp⟩

/-- C7 witness: with an account whose whitelist matches nothing, the
concrete run rejects with connection-failed and invalid permissions. -/
theorem claim_C7_witness :
    .reject .connectionFailed "invalid permissions" ∈
      (handleChannelForward cfg0 { env0 with heap := fun _ => acctDeny }
        { sess0 with verified := true }).2 :=
  (claim_C7_policy_deny_no_side_effects cfg0 { env0 with heap := fun _ => acctDeny }
    { sess0 with verified := true } (by decide)).2.2.2.2 (by decide)

/-- C8 counterexample: on a session that already holds an agent handle
(as after a first forward channel), a further forward channel still opens
a new auth-agent channel and replaces the stored handle, refuting the
claim that the first handle is reused and not replaced. -/
theorem claim_C8_counterexample :
    .openAgentChannel ∈
      (handleChannelForward cfg0 env0 { sess0 with agent := some 5, verified := true }).2 ∧
    (handleChannelForward cfg0 env0 { sess0 with agent := some 5, verified := true }).1.agent
      = some 7 ∧
    ¬ (handleChannelForward cfg0 env0
        { sess0 with agent := some 5, verified := true }).1.agent = some 5 := by
  decide

/-- C8 amended: every forward channel on which the auth-agent channel
opens successfully emits a fresh open of auth-agent at openssh.com and
stores a client on the new channel as the session agent handle,
overwriting whatever handle the session held before. -/
theorem claim_C8_amended_fresh_agent_each_channel (cfg : Config) (env : Env)
    (s : SSHSession) (a : Nat) (ha : env.openAgentRes = some a) :
    .openAgentChannel ∈ (handleChannelForward cfg env s).2 ∧
    (handleChannelForward cfg env s).1.agent = some a := by
  cases hv : s.verified with
  | true =>
    rw [handleChannelForward_on_verified cfg env s a ha hv]
    exact ⟨by simp, forwardAfterVerify_agent cfg env { s with agent := some a }⟩
  | false =>
    cases hs : env.signersRes with
    | none =>
      rw [handleChannelForward_signers_fail cfg env s a ha hv hs]
      exact ⟨by simp, rfl⟩
    | some sgs =>
      cases hl : verifyLoop env.keys s.account sgs with
      | rejected c m =>
        rw [handleChannelForward_loop_reject cfg env s a sgs c m ha hv hs hl]
        exact ⟨by simp, rfl⟩
      | fellThrough v =>
        rw [handleChannelForward_fell_through cfg env s a sgs v ha hv hs hl]
        exact ⟨by simp,
          forwardAfterVerify_agent cfg env { s with agent := some a, verified := v }⟩

/-- C8 amended witness: the concrete session that came in holding handle 5
leaves the handler holding handle 7. -/
theorem claim_C8_amended_witness :
    .openAgentChannel ∈
      (handleChannelForward cfg0 env0 { sess0 with agent := some 5, verified := true }).2 ∧
    (handleChannelForward cfg0 env0 { sess0 with agent := some 5, verified := true }).1.agent
      = some 7 :=
  claim_C8_amended_fresh_agent_each_channel cfg0 env0
    { sess0 with agent := some 5, verified := true } 7 rfl

/-- Once the latch has fired, further triggers run nothing. -/
theorem runTriggers_done (n : Nat) : runTriggers n true = (true, []) := by
  induction n with
  | zero => rfl
  | succ n ih => simp [runTriggers, onceDo, ih]

/-- C9: for any positive number of teardown triggers, in whatever order
the two copy directions finish, the latch body runs exactly once: the
emitted close trace is exactly one closure of the agent channel, the
client channel and the TCP connection. -/
theorem claim_C9_teardown_exactly_once (n : Nat) :
    (runTriggers (n + 1) false).2 = closeFunc ∧
    (runTriggers (n + 1) false).1 = true := by
  simp [runTriggers, onceDo, runTriggers_done n]

/-- C10: a forward channel whose extra data fails to decode is never
rejected for the decode failure; on a verified session the handler
consults the policy on the empty host of the zero-valued request and,
when policy, CA and agent addition allow, dials the target ":0" built
from the empty host and port zero. -/
theorem claim_C10_decode_failure_ignored (cfg : Config) (env : Env) (s : SSHSession)
    (a : Nat) (hx : env.extraData = none) (ha : env.openAgentRes = some a)
    (hv : s.verified = true) :
    .policyConsult "" ∈ (handleChannelForward cfg env s).2 ∧
    (canConnectTo (env.heap s.account) "" = true → env.caFail = false →
      env.agentAddOk = true →
      .dial ":0" ∈ (handleChannelForward cfg env s).2) := by
  rw [handleChannelForward_on_verified cfg env s a ha hv]
  constructor
  · have h1 := forwardAfterVerify_consults cfg env { s with agent := some a }
    rw [hx] at h1
    exact List.mem_append.mpr (Or.inr h1)
  · intro hc hca haddok
    have hc2 : canConnectTo (env.heap ({ s with agent := some a } : SSHSession).account)
        ((env.extraData.getD zeroDirectMsg).raddr) = true := by
      rw [hx]
      exact hc
    have h2 := forwardAfterVerify_dial cfg env { s with agent := some a } hc2 hca haddok
    rw [hx] at h2
    exact List.mem_append.mpr (Or.inr h2)

/-- C10 witness: the concrete environment with undecodable extra data
consults policy on the empty host and dials ":0". -/
theorem claim_C10_witness :
    .policyConsult "" ∈
      (handleChannelForward cfg0 env0 { sess0 with verified := true }).2 ∧
    .dial ":0" ∈ (handleChannelForward cfg0 env0 { sess0 with verified := true }).2 :=
  ⟨(claim_C10_decode_failure_ignored cfg0 env0 { sess0 with verified := true } 7
      rfl rfl rfl).1,
   (claim_C10_decode_failure_ignored cfg0 env0 { sess0 with verified := true } 7
      rfl rfl rfl).2 (by decide) rfl rfl⟩

/-- A key present in the association map is found by lookup. -/
theorem mapGet_isSome_of_mem {α : Type} (l : List (String × α)) (u : String)
    (h : u ∈ l.map Prod.fst) : ∃ v, mapGet l u = some v := by
  induction l with
  | nil => simp at h
  | cons p rest ih =>
    obtain ⟨k, v⟩ := p
    by_cases hk : k = u
    · exact ⟨v, by simp [mapGet, hk]⟩
    · have h2 : u ∈ rest.map Prod.fst := by
        simp at h
        rcases h with h | h
        · exact absurd h.symm hk
        · simpa using h
      obtain ⟨v2, hv2⟩ := ih h2
      exact ⟨v2, by simp [mapGet, hk, hv2]⟩

/-- A key the lookup misses is absent from the map domain. -/
theorem mapGet_none_not_mem {α : Type} (l : List (String × α)) (u : String)
    (h : mapGet l u = none) : u ∉ l.map Prod.fst := by
  intro hmem
  obtain ⟨v, hv⟩ := mapGet_isSome_of_mem l u hmem
  rw [hv] at h
  simp at h

/-- The key loop aborts when one of the remaining raw keys parses to a
wire already present in the key map. -/
theorem buildKeys_mem_abort (parse : String → Option String) (cell : Nat)
    (rawKeys : List String) :
    ∀ (keys : List (String × AccountKey)) (w : String),
      w ∈ keys.map Prod.fst → w ∈ rawKeys.filterMap parse →
      buildKeys parse cell rawKeys keys = none := by
  induction rawKeys with
  | nil =>
    intro keys w hw hmem
    simp at hmem
  | cons r rest ih =>
    intro keys w hw hmem
    rw [buildKeys]
    cases hp : parse r with
    | none =>
      simp only [hp]
      refine ih keys w hw ?_
      simpa [List.filterMap_cons, hp] using hmem
    | some w2 =>
      simp only [hp]
      cases hg : mapGet keys w2 with
      | some v => simp
      | none =>
        simp only [hg]
        have hmem2 : w = w2 ∨ w ∈ rest.filterMap parse := by
          simpa [List.filterMap_cons, hp] using hmem
        rcases hmem2 with rfl | hmem2
        · exact absurd hw (mapGet_none_not_mem keys w hg)
        · exact ih ((w2, ⟨cell⟩) :: keys) w (by simp [hw]) hmem2

/-- The key loop aborts when the remaining raw keys parse to a wire list
with an internal duplicate. -/
theorem buildKeys_dup_abort (parse : String → Option String) (cell : Nat)
    (rawKeys : List String) :
    ∀ (keys : List (String × AccountKey)),
      ¬ (rawKeys.filterMap parse).Nodup →
      buildKeys parse cell rawKeys keys = none := by
  induction rawKeys with
  | nil =>
    intro keys hdup
    simp at hdup
  | cons r rest ih =>
    intro keys hdup
    rw [buildKeys]
    cases hp : parse r with
    | none =>
      simp only [hp]
      refine ih keys ?_
      intro hnd
      exact hdup (by simpa [List.filterMap_cons, hp] using hnd)
    | some w2 =>
      simp only [hp]
      cases hg : mapGet keys w2 with
      | some v => simp
      | none =>
        simp only [hg]
        by_cases hmem : w2 ∈ rest.filterMap parse
        · exact buildKeys_mem_abort parse cell rest ((w2, ⟨cell⟩) :: keys) w2 (by simp) hmem
        · refine ih ((w2, ⟨cell⟩) :: keys) ?_
          intro hnd
          exact hdup (by simp [List.filterMap_cons, hp, List.nodup_cons, hmem, hnd])

/-- A successful key loop keeps every wire already in the map and adds
every wire it parsed. -/
theorem buildKeys_some_mem (parse : String → Option String) (cell : Nat)
    (rawKeys : List String) :
    ∀ (keys keys2 : List (String × AccountKey)) (w : String),
      buildKeys parse cell rawKeys keys = some keys2 →
      (w ∈ keys.map Prod.fst ∨ w ∈ rawKeys.filterMap parse) →
      w ∈ keys2.map Prod.fst := by
  induction rawKeys with
  | nil =>
    intro keys keys2 w hb hw
    simp [buildKeys] at hb
    subst hb
    rcases hw with hw | hw
    · exact hw
    · simp at hw
  | cons r rest ih =>
    intro keys keys2 w hb hw
    rw [buildKeys] at hb
    cases hp : parse r with
    | none =>
      simp only [hp] at hb
      refine ih keys keys2 w hb ?_
      rcases hw with hw | hw
      · exact Or.inl hw
      · right
        simpa [List.filterMap_cons, hp] using hw
    | some w2 =>
      simp only [hp] at hb
      cases hg : mapGet keys w2 with
      | some v => simp [hg] at hb
      | none =>
        simp only [hg] at hb
        refine ih ((w2, ⟨cell⟩) :: keys) keys2 w hb ?_
        rcases hw with hw | hw
        · exact Or.inl (by simp [hw])
        · have hw2 : w = w2 ∨ w ∈ rest.filterMap parse := by
            simpa [List.filterMap_cons, hp] using hw
          rcases hw2 with rfl | hw2
          · exact Or.inl (by simp)
          · exact Or.inr hw2

/-- The account loop aborts when a remaining raw account reuses a
username already bound in the account map. -/
theorem buildMaps_user_mem_abort (parse : String → Option String) (cell : Nat) :
    ∀ (raw : List RawAccount) (accounts : List (String × Nat))
      (keys : List (String × AccountKey)) (u : String),
      u ∈ accounts.map Prod.fst → u ∈ raw.map RawAccount.username →
      buildMaps parse cell raw accounts keys = none := by
  intro raw
  induction raw with
  | nil =>
    intro accounts keys u hu hmem
    simp at hmem
  | cons a rest ih =>
    intro accounts keys u hu hmem
    rw [buildMaps]
    cases hg : mapGet accounts a.username with
    | some v => simp
    | none =>
      simp only [hg]
      have hne : u ≠ a.username := by
        intro he
        subst he
        exact absurd hu (mapGet_none_not_mem accounts a.username hg)
      have hmem2 : u ∈ rest.map RawAccount.username := by
        simp at hmem
        rcases hmem with h | h
        · exact absurd h hne
        · simpa using h
      cases hbk : buildKeys parse cell a.sshKeysRaw keys with
      | none => simp
      | some keys2 =>
        simp only [hbk]
        exact ih ((a.username, cell) :: accounts) keys2 u (by simp [hu]) hmem2

/-- The account loop aborts on a duplicate username among the remaining
raw accounts. -/
theorem buildMaps_user_dup_abort (parse : String → Option String) (cell : Nat) :
    ∀ (raw : List RawAccount) (accounts : List (String × Nat))
      (keys : List (String × AccountKey)),
      ¬ (raw.map RawAccount.username).Nodup →
      buildMaps parse cell raw accounts keys = none := by
  intro raw
  induction raw with
  | nil =>
    intro accounts keys h
    simp at h
  | cons a rest ih =>
    intro accounts keys hdup
    rw [buildMaps]
    cases hg : mapGet accounts a.username with
    | some v => simp
    | none =>
      simp only [hg]
      cases hbk : buildKeys parse cell a.sshKeysRaw keys with
      | none => simp
      | some keys2 =>
        simp only [hbk]
        by_cases hmem : a.username ∈ rest.map RawAccount.username
        · exact buildMaps_user_mem_abort parse cell rest
            ((a.username, cell) :: accounts) keys2 a.username (by simp) hmem
        · refine ih ((a.username, cell) :: accounts) keys2 ?_
          intro hnd
          exact hdup (by simp [List.nodup_cons, hmem, hnd])

/-- The account loop aborts when a wire already in the key map reappears
among the remaining accounts. -/
theorem buildMaps_wire_mem_abort (parse : String → Option String) (cell : Nat) :
    ∀ (raw : List RawAccount) (accounts : List (String × Nat))
      (keys : List (String × AccountKey)) (w : String),
      w ∈ keys.map Prod.fst → w ∈ allWires parse raw →
      buildMaps parse cell raw accounts keys = none := by
  intro raw
  induction raw with
  | nil =>
    intro accounts keys w hw hmem
    simp [allWires] at hmem
  | cons a rest ih =>
    intro accounts keys w hw hmem
    rw [buildMaps]
    cases hg : mapGet accounts a.username with
    | some v => simp
    | none =>
      simp only [hg]
      rw [allWires] at hmem
      have hmem2 : w ∈ wiresOf parse a ∨ w ∈ allWires parse rest := List.mem_append.mp hmem
      cases hbk : buildKeys parse cell a.sshKeysRaw keys with
      | none => simp
      | some keys2 =>
        simp only [hbk]
        rcases hmem2 with hmem2 | hmem2
        · have habort := buildKeys_mem_abort parse cell a.sshKeysRaw keys w hw hmem2
          rw [habort] at hbk
          exact absurd hbk (by simp)
        · exact ih ((a.username, cell) :: accounts) keys2 w
            (buildKeys_some_mem parse cell a.sshKeysRaw keys keys2 w hbk (Or.inl hw)) hmem2

/-- The account loop aborts on a duplicate among all parsed wires of the
remaining accounts. -/
theorem buildMaps_wire_dup_abort (parse : String → Option String) (cell : Nat) :
    ∀ (raw : List RawAccount) (accounts : List (String × Nat))
      (keys : List (String × AccountKey)),
      ¬ (allWires parse raw).Nodup →
      buildMaps parse cell raw accounts keys = none := by
  intro raw
  induction raw with
  | nil =>
    intro accounts keys h
    simp [allWires] at h
  | cons a rest ih =>
    intro accounts keys hdup
    rw [buildMaps]
    cases hg : mapGet accounts a.username with
    | some v => simp
    | none =>
      simp only [hg]
      cases hbk : buildKeys parse cell a.sshKeysRaw keys with
      | none => simp
      | some keys2 =>
        simp only [hbk]
        by_cases h1 : (wiresOf parse a).Nodup
        · by_cases h2 : (allWires parse rest).Nodup
          · have hshared : ∃ w, w ∈ wiresOf parse a ∧ w ∈ allWires parse rest := by
              by_contra hno
              push_neg at hno
              refine hdup ?_
              rw [allWires]
              exact List.nodup_append.mpr ⟨h1, h2, fun w hw1 hw2 => hno w hw1 hw2⟩
            obtain ⟨w, hw1, hw2⟩ := hshared
            exact buildMaps_wire_mem_abort parse cell rest
              ((a.username, cell) :: accounts) keys2 w
              (buildKeys_some_mem parse cell a.sshKeysRaw keys keys2 w hbk (Or.inr hw1)) hw2
          · exact ih ((a.username, cell) :: accounts) keys2 h2
        · have habort := buildKeys_dup_abort parse cell a.sshKeysRaw keys h1
          rw [habort] at hbk
          exact absurd hbk (by simp)

/-- C5: a reload of an accounts file containing a duplicate username or a
duplicate parsed key wire marshalling aborts the rebuild, and both store
maps are left exactly as they were before the call. -/
theorem claim_C5_reload_duplicate_keeps_store (parse : String → Option String)
    (cell : Nat) (raw : List RawAccount) (st : StoreMaps)
    (hdup : ¬ (raw.map RawAccount.username).Nodup ∨ ¬ (allWires parse raw).Nodup) :
    buildMaps parse cell raw [] [] = none ∧
    reloadAccounts parse cell (some raw) st = st := by
  have hnone : buildMaps parse cell raw [] [] = none := by
    rcases hdup with h | h
    · exact buildMaps_user_dup_abort parse cell raw [] [] h
    · exact buildMaps_wire_dup_abort parse cell raw [] [] h
  exact ⟨hnone, by simp [reloadAccounts, hnone]⟩

/-- C5 witness: a concrete accounts file that repeats the username alice
leaves a concrete non-empty store unchanged. -/
theorem claim_C5_witness :
    reloadAccounts (fun _ => none) 0
      (some [{ username := "alice", sshKeysRaw := [] },
             { username := "alice", sshKeysRaw := [] }])
      { accounts := [("bob", 3)], keys := [("kw", ⟨3⟩)] } =
    { accounts := [("bob", 3)], keys := [("kw", ⟨3⟩)] } :=
  (claim_C5_reload_duplicate_keeps_store (fun _ => none) 0
      [{ username := "alice", sshKeysRaw := [] },
       { username := "alice", sshKeysRaw := [] }]
      { accounts := [("bob", 3)], keys := [("kw", ⟨3⟩)] }
      (Or.inl (by decide))).2

end Bowser
